import Mathlib

/-!
Verification of the vps-path-watcher health/policy engine.

This file is a shallow embedding of the Go sources (`main.go`, `vps.go`,
`config.go` and the nftables rule generator).  Pure computations (status
aggregation, policy selection, rule-string generation) are translated
directly; network I/O (dialing, pinging, HTTP requests, the regexp engine)
is abstracted as oracle parameters that supply the observed outcome of
each external call, while the surrounding control flow is translated
faithfully.  Machine integers: the Go code stores ratios in `int8` and
accumulates them in `uint8`; that arithmetic is modelled on `Int`/`Nat`
with explicit `% 256`.  Times (`time.Time`, `time.Duration`) are modelled
as `Int` nanoseconds.
-/

/-- Checks performed on an interface (struct `interfaceStatus` in vps.go):
the three basic checks plus the named health-check verdict map.  The Go
`map[string]bool` is modelled as an association list with unique keys. -/
structure interfaceStatus where
  «exists» : Bool := false
  up : Bool := false
  addressed : Bool := false
  healthChecks : List (String × Bool) := []
  time : Int := 0
  deriving Repr, DecidableEq

/-- Health-check configuration (struct `vpsHealthCheck` in vps.go).
`MaxLossPcnt` is a `float64` in Go; it is modelled as `Rat`, which agrees
with IEEE comparison on the exactly-representable percentages involved. -/
structure vpsHealthCheck where
  Name : String := ""
  «Type» : String := ""
  Host : String := ""
  Port : String := ""
  Retries : Int := 0
  Count : Int := 0
  MaxRTT : Int := 0
  MaxLossPcnt : Rat := 0
  TLS : Bool := false
  Insecure : Bool := false
  Method : String := ""
  Path : String := ""
  MatchRegEx : String := ""
  ResponseCode : Int := 0
  deriving Repr, DecidableEq

/-- Interface configuration plus runtime status (struct `vpsInterface`).
Only the fields the verified code paths read are carried. -/
structure vpsInterface where
  Name : String := ""
  Address : String := ""
  Ratio : Int := 0
  Target : String := ""
  Mark : Int := 0
  Checks : List vpsHealthCheck := []
  status : interfaceStatus := {}
  deriving Repr, DecidableEq

/-- `(*interfaceStatus).healthy` (vps.go): returns the boolean verdict and
the list of human-readable failure reasons.  The basic checks are an
if/else-if chain (at most one basic reason), then every failing entry of
the verdict map appends a `Failed <name>` reason. -/
def interfaceStatus.healthy (s : interfaceStatus) : Bool × List String :=
  let base : Bool × List String :=
    if !s.exists then (false, ["Interface does not exist"])
    else if !s.up then (false, ["Interface is no up"])
    else if !s.addressed then (false, ["Interface not properly addressed"])
    else (true, [])
  s.healthChecks.foldl
    (fun acc p => if !p.2 then (false, acc.2 ++ ["Failed " ++ p.1]) else acc) base

/-- `getHealthyInterfaces` (main.go): the configured interfaces whose
status is currently healthy, in configuration order. -/
def getHealthyInterfaces (ifaces : List vpsInterface) : List vpsInterface :=
  ifaces.filter (fun i => (interfaceStatus.healthy i.status).fst)

/-- Go `strings.Join(ss, "|")` as used by `checkInterfaces` (main.go). -/
def joinPipe : List String → String
  | [] => ""
  | [a] => a
  | a :: rest => a ++ "|" ++ joinPipe rest

/-- The desired-status computation of `checkInterfaces` (main.go):
`none` models the branch that refuses to act because no interface is
healthy (the Go code leaves `desiredStatus` at `currentStatus` there);
a degraded set serializes the healthy names joined by `|`; a fully
healthy set yields the sentinel `all`. -/
def desiredPolicy (ifaces : List vpsInterface) : Option String :=
  let hs := getHealthyInterfaces ifaces
  if hs = [] then none
  else if hs.length < ifaces.length then
    some (joinPipe (hs.map (fun i => i.Name)))
  else some "all"

/-- Sets key `k` to `v` in the modelled Go map (overwrite when present,
insert otherwise). -/
def mapSet (m : List (String × Bool)) (k : String) (v : Bool) : List (String × Bool) :=
  if m.any (fun p => p.1 = k) then m.map (fun p => if p.1 = k then (k, v) else p)
  else m ++ [(k, v)]

/-- The check types the `switch` in `(*vpsInterface).healthCheck` (vps.go)
recognizes; any other type hits the `default` branch, which logs and
returns without recording a verdict. -/
def knownCheckType (t : String) : Bool := t = "tcp" || t = "icmp" || t = "http"

/-- One iteration of `(*vpsInterface).healthCheck`: record the check
outcome under the check name for recognized types, do nothing otherwise.
The network verdict itself (`checkTCP`/`checkICMP`/`checkHTTP`) is
supplied by the `outcome` oracle. -/
def healthCheckStep (outcome : vpsHealthCheck → Bool) (m : List (String × Bool))
    (c : vpsHealthCheck) : List (String × Bool) :=
  if knownCheckType c.«Type» then mapSet m c.Name (outcome c) else m

/-- `(*vpsInterface).healthChecks` (vps.go) on a freshly reset status:
runs every configured check in order, accumulating the verdict map.
(The optional Wireguard collaborator checks are outside the modelled
interfaces.) -/
def healthChecksAll (outcome : vpsHealthCheck → Bool)
    (cs : List vpsHealthCheck) : List (String × Bool) :=
  cs.foldl (healthCheckStep outcome) []

/-- Go `uint8(x)` applied to an `int8`-valued field: two's-complement
truncation to 0..255. -/
def u8 (x : Int) : Nat := (x % 256).toNat

/-- The `uint8(i.Ratio)` read used throughout `makeRule` (nft rule
generator). -/
def ratioU8 (i : vpsInterface) : Nat := u8 i.Ratio

/-- The `ttlMod` accumulation loop of `makeRule`: a `uint8` running sum of
the selected interfaces' ratios (wrapping at 256). -/
def sumRatiosU8 (l : List vpsInterface) : Nat :=
  l.foldl (fun a i => (a + ratioU8 i) % 256) 0

/-- The modulus chosen by `makeRule`: starts at 10 and is overwritten by
`ttlMod` whenever `ttlMod != 10`. -/
def ruleModulus (l : List vpsInterface) : Nat :=
  if sumRatiosU8 l ≠ 10 then sumRatiosU8 l else 10

/-- The vmap entries produced by the range loop of `makeRule`, carrying
`(start, stop, target)`.  All arithmetic is `uint8`: the stop bound is
`uint8(nif.Ratio) + (curMod - 1)` and `curMod` advances by
`uint8(nif.Ratio)`, both wrapping at 256. -/
def vmapList : Nat → List vpsInterface → List (Nat × Nat × String)
  | _, [] => []
  | cur, i :: rest =>
    (cur, (ratioU8 i + (cur + 255) % 256) % 256, i.Target)
      :: vmapList ((cur + ratioU8 i) % 256) rest

/-- Renders vmap entries exactly as the `rule.WriteString` loop of
`makeRule` does: each entry as `· start-stop : goto target,`. -/
def renderVmap : List (Nat × Nat × String) → String
  | [] => ""
  | e :: rest =>
    " " ++ toString e.1 ++ "-" ++ toString e.2.1 ++ " : goto " ++ e.2.2 ++ ","
      ++ renderVmap rest

/-- `makeRule` (nft rule generator): the full textual nft rule.  The Go
code truncates the final comma (`rule.Truncate(rule.Len()-1)`) and closes
with a space and a brace. -/
def makeRule (family table chain : String) (l : List vpsInterface) : String :=
  let rule := "add rule " ++ family ++ " " ++ table ++ " " ++ chain ++ " "
    ++ "jhash ip saddr . ether saddr . meta l4proto . th sport mod "
    ++ toString (ruleModulus l) ++ " vmap \x7b" ++ renderVmap (vmapList 0 l)
  rule.dropRight 1 ++ " \x7d"

/-- Contiguous block of naturals `s, s+1, ..., s+n-1`; used to state the
exhaustiveness of the vmap partition. -/
def rangeList : Nat → Nat → List Nat
  | _, 0 => []
  | s, n + 1 => s :: rangeList (s + 1) n

/-- The set of hash values covered by a list of vmap ranges, in order. -/
def coveredPoints : List (Nat × Nat × String) → List Nat
  | [] => []
  | e :: rest => rangeList e.1 (e.2.1 + 1 - e.1) ++ coveredPoints rest

/-- Specification-side ideal vmap partition: plain (non-wrapping) prefix
sums, each entry `(cur, cur + ratio - 1, target)`. -/
def idealVmap : Nat → List vpsInterface → List (Nat × Nat × String)
  | _, [] => []
  | cur, i :: rest =>
    (cur, cur + ratioU8 i - 1, i.Target) :: idealVmap (cur + ratioU8 i) rest

/-- Mutations issued against the shared load-balancing chain. -/
inductive nftAction where
  | flushChain : nftAction
  | installRule (rule : String) : nftAction
  deriving Repr, DecidableEq

/-- Splitting a character list at every `|` (the separator never remains
in the fragments; `n` separators yield `n+1` fragments). -/
def splitCharsPipe : List Char → List (List Char)
  | [] => [[]]
  | c :: rest =>
    if c = '|' then [] :: splitCharsPipe rest
    else
      match splitCharsPipe rest with
      | [] => [[c]]
      | g :: gs => (c :: g) :: gs

/-- Go `strings.Split(ss, "|")` as used by `routeToSubset`: always
returns at least one fragment. -/
def splitPipe (s : String) : List String :=
  (splitCharsPipe s.data).map (fun l => String.mk l)

/-- The interface lookup loop of `routeToSubset`: for each requested name
(outer loop), every configured interface with that name (inner loop). -/
def findSubsetIfaces (ifaces : List vpsInterface) (names : List String) :
    List vpsInterface :=
  names.foldl (fun acc n => acc ++ ifaces.filter (fun i => i.Name = n)) []

/-- `routeToSubset` (nft rule generator): split the policy string on `|`,
collect the matching interfaces, then flush the chain and install the
generated rule.  The `log.Fatalf` path (no matching interface) aborts the
process; it is modelled as issuing no action. -/
def routeToSubset (family table chain : String) (ifaces : List vpsInterface)
    (ss : String) : List nftAction :=
  let nifs := splitPipe ss
  if nifs.length < 1 then []
  else
    let ssNIFs := findSubsetIfaces ifaces nifs
    if ssNIFs.length < 1 then []
    else [nftAction.flushChain,
          nftAction.installRule (makeRule family table chain ssNIFs)]

/-- `routeToAll` (nft rule generator): flush and install the rule over all
configured interfaces. -/
def routeToAll (family table chain : String) (ifaces : List vpsInterface) :
    List nftAction :=
  [nftAction.flushChain, nftAction.installRule (makeRule family table chain ifaces)]

/-- `updateNFT` (nft rule generator): returns the new stored state and the
chain mutations.  Note the Go code sets its `state` result only in the
`"all"` branch; after routing to a subset it returns the empty string. -/
def updateNFT (family table chain : String) (ifaces : List vpsInterface)
    (ds : String) : String × List nftAction :=
  if ds = "all" then ("all", routeToAll family table chain ifaces)
  else ("", routeToSubset family table chain ifaces ds)

/-- The policy tail of `checkInterfaces` (main.go): compute the desired
status (falling back to `currentStatus` when no interface is healthy) and
call `updateNFT` only when it differs from the current status.  Returns
the new `currentStatus` and the actions issued this cycle. -/
def cyclePolicy (family table chain : String) (ifaces : List vpsInterface)
    (current : String) : String × List nftAction :=
  let desired := (desiredPolicy ifaces).getD current
  if current ≠ desired then updateNFT family table chain ifaces desired
  else (current, [])

/-- The zero-value `interfaceStatus` that `resetHealth` (vps.go) installs
on every interface at the end of each cycle (`new(interfaceStatus)`). -/
def emptyStatus : interfaceStatus := {}

/-- The backdating applied on an interface's first-ever cycle
(`time.Now().Add(-8760 * time.Hour)` in main.go), in nanoseconds. -/
def firstCycleBackdate : Int := 8760 * 3600 * 1000000000

/-- `(*vpsInterface).basicChecks` followed by the gated
`(*vpsInterface).healthChecks` and the `status.time` stamp, as performed
by the loop body of `checkInterfaces` (main.go) on a freshly reset status.
`e`, `upOk`, `addrOk` are the oracle outcomes of the interface lookup,
the flag inspection and the address enumeration; `up`/`addressed` are
only probed when the interface exists. -/
def runStatus (e upOk addrOk : Bool) (checks : List vpsHealthCheck)
    (outcome : vpsHealthCheck → Bool) (now : Int) : interfaceStatus :=
  let s : interfaceStatus :=
    { «exists» := e, up := e && upOk, addressed := e && addrOk }
  let s :=
    if (interfaceStatus.healthy s).fst then
      { s with healthChecks := healthChecksAll outcome checks }
    else s
  { s with time := now }

/-- Cross-cycle mutable state of one interface (`lastStatus` and
`lastUnhealthy` fields of `vpsInterface`). -/
structure ifState where
  lastStatus : Option interfaceStatus := none
  lastUnhealthy : Int := 0
  deriving Repr, DecidableEq

/-- One interface's slice of a `checkInterfaces` cycle (main.go):
when a previous status exists and the time since `lastUnhealthy` is below
the configured minimum time-out the interface is skipped (`continue`), so
its status stays the zero value installed by `resetHealth`; otherwise the
checks run, `lastStatus` is recorded, and `lastUnhealthy` is set to the
evaluation time when the verdict is unhealthy.  Returns the updated
cross-cycle state and the status the policy computation will read. -/
def cycleIface (minTimeOut now : Int) (e upOk addrOk : Bool)
    (checks : List vpsHealthCheck) (outcome : vpsHealthCheck → Bool)
    (st : ifState) : ifState × interfaceStatus :=
  match st.lastStatus with
  | some _ =>
    if now - st.lastUnhealthy < minTimeOut then (st, emptyStatus)
    else
      let s := runStatus e upOk addrOk checks outcome now
      ({ lastStatus := some s,
         lastUnhealthy :=
           if (interfaceStatus.healthy s).fst then st.lastUnhealthy else s.time }, s)
  | none =>
    let s := runStatus e upOk addrOk checks outcome now
    ({ lastStatus := some s,
       lastUnhealthy :=
         if (interfaceStatus.healthy s).fst then now - firstCycleBackdate
         else s.time }, s)

/-- `checkICMP` (vps.go) after the pinger ran: `pingerOk` is the outcome
of `ping.NewPinger`, `runOk` of `p.Run()`; `avgRtt` is the observed
average round-trip time in nanoseconds and `packetLoss` the observed loss
percentage.  `MaxRTT` is configured in milliseconds hence the `1000000`
scaling (`time.Duration(c.MaxRTT*int(time.Millisecond))`). -/
def checkICMP (c : vpsHealthCheck) (pingerOk runOk : Bool) (avgRtt : Int)
    (packetLoss : Rat) : Bool :=
  if !pingerOk then false
  else if !runOk then false
  else if c.MaxRTT ≠ 0 ∧ avgRtt > c.MaxRTT * 1000000 then false
  else if c.MaxLossPcnt ≠ 0 then
    if packetLoss > c.MaxLossPcnt then false else true
  else if packetLoss = 100 then false
  else true

/-- Outcome of one HTTP attempt: a transport error (`client.Get` returned
an error) or a response with its status code and body. -/
inductive httpAttempt where
  | err : httpAttempt
  | resp (statusCode : Int) (body : String) : httpAttempt
  deriving Repr, DecidableEq

/-- The `GET` retry loop of `checkHTTP` (vps.go): `k` is the index of the
next attempt, the second argument the number of attempts remaining
(`for i := -1; i < c.Retries; i++` makes `Retries + 1` iterations).
Transport errors continue the loop; a response returns immediately:
false on a status-code mismatch, false when a body pattern is configured
and fails to match, true otherwise. -/
def checkHTTPLoop (c : vpsHealthCheck) (reMatch : String → Bool)
    (attempts : Nat → httpAttempt) : Nat → Nat → Bool
  | _, 0 => false
  | k, n + 1 =>
    match attempts k with
    | httpAttempt.err => checkHTTPLoop c reMatch attempts (k + 1) n
    | httpAttempt.resp code body =>
      if c.ResponseCode ≠ code then false
      else if c.MatchRegEx ≠ "" && !(reMatch body) then false
      else true

/-- `checkHTTP` (vps.go): a configured pattern that fails to compile
(`reOk = false`) fails the check up front; only the `GET` method is
implemented (`default` fails); otherwise the retry loop runs with
`Retries + 1` attempts.  The regexp engine is abstracted by `reMatch`. -/
def checkHTTP (c : vpsHealthCheck) (reOk : Bool) (reMatch : String → Bool)
    (attempts : Nat → httpAttempt) : Bool :=
  if c.MatchRegEx ≠ "" && !reOk then false
  else if c.Method = "GET" then
    checkHTTPLoop c reMatch attempts 0 (c.Retries + 1).toNat
  else false

/-- A status with every basic check passing and no recorded health
checks. -/
def healthyBasicStatus : interfaceStatus := { «exists» := true, up := true, addressed := true }

/-- Fixture: interface with ratio 3 (the `[3,7]` scenario). -/
def exIface3 : vpsInterface := { Name := "wg0", Ratio := 3, Target := "vps1", status := healthyBasicStatus }

/-- Fixture: interface with ratio 7 (the `[3,7]` scenario). -/
def exIface7 : vpsInterface := { Name := "wg1", Ratio := 7, Target := "vps2", status := healthyBasicStatus }

/-- Fixtures: three ratio-1 interfaces (the `[1,1,1]` scenario). -/
def exIface1a : vpsInterface := { Name := "wg0", Ratio := 1, Target := "vps1", status := healthyBasicStatus }

/-- Second ratio-1 fixture. -/
def exIface1b : vpsInterface := { Name := "wg1", Ratio := 1, Target := "vps2", status := healthyBasicStatus }

/-- Third ratio-1 fixture. -/
def exIface1c : vpsInterface := { Name := "wg2", Ratio := 1, Target := "vps3", status := healthyBasicStatus }

/-- Fixture: an interface whose status is the zero value (all basic
checks failing). -/
def exIfaceDown : vpsInterface := { Name := "wg1", Ratio := 7, Target := "vps2" }

/-- Fixture configuration for the idempotence scenario: `wg0` healthy,
`wg1` down, so the desired policy is the subset `"wg0"`. -/
def c4Ifaces : List vpsInterface :=
  [{ Name := "wg0", Ratio := 5, Target := "vps1", status := healthyBasicStatus }, exIfaceDown]

/-- Fixture: an unhealthy status as recorded at the end of an evaluated
cycle (interface missing, evaluated at time 0). -/
def c7PrevStatus : interfaceStatus := { «exists» := false, time := 0 }

/-- Fixture: cross-cycle state of an interface last observed unhealthy at
time 0. -/
def c7State : ifState := { lastStatus := some c7PrevStatus, lastUnhealthy := 0 }

/-- Fixture: a status with all basic checks passing and one passing
recorded health check. -/
def c1Status : interfaceStatus :=
  { «exists» := true, up := true, addressed := true, healthChecks := [("ping", true)] }

/-- Fixture: a TCP check named `t1`. -/
def c10Tcp : vpsHealthCheck := { Name := "t1", «Type» := "tcp" }

/-- Fixture: a check with the unrecognized type `udp`. -/
def c10Udp : vpsHealthCheck := { Name := "u1", «Type» := "udp" }

/-- Fixture: a ratio-100 interface (a legal positive `int8` ratio) for
the `uint8` wrap scenario. -/
def exIface100a : vpsInterface := { Name := "wg0", Ratio := 100, Target := "vps1" }

/-- Second ratio-100 fixture. -/
def exIface100b : vpsInterface := { Name := "wg1", Ratio := 100, Target := "vps2" }

/-- Third ratio-100 fixture. -/
def exIface100c : vpsInterface := { Name := "wg2", Ratio := 100, Target := "vps3" }

/-- Fixture selection whose ratio sum 300 overflows the `uint8`
accumulator of `makeRule`. -/
def c3WrapIfaces : List vpsInterface := [exIface100a, exIface100b, exIface100c]

/-! ### Helper lemmas about the status aggregation -/

/-- The verdict component of the health-check fold: the accumulator's
verdict conjoined with every recorded check passing. -/
theorem healthyFold_fst (l : List (String × Bool)) (init : Bool × List String) :
    (l.foldl (fun acc p => if !p.2 then (false, acc.2 ++ ["Failed " ++ p.1]) else acc)
        init).fst
      = (init.fst && l.all (fun p => p.2)) := by
  induction l generalizing init with
  | nil => simp
  | cons p t ih =>
    rw [List.foldl_cons, ih]
    cases hp : p.2 <;> simp [hp]

/-- The reasons component of the health-check fold: the accumulated
reasons followed by one `Failed <name>` entry per failing check. -/
theorem healthyFold_snd (l : List (String × Bool)) (init : Bool × List String) :
    (l.foldl (fun acc p => if !p.2 then (false, acc.2 ++ ["Failed " ++ p.1]) else acc)
        init).snd
      = init.snd ++ (l.filter (fun p => !p.2)).map (fun p => "Failed " ++ p.1) := by
  induction l generalizing init with
  | nil => simp
  | cons p t ih =>
    rw [List.foldl_cons, ih]
    cases hp : p.2 <;> simp [List.filter_cons, hp]

/-- Closed form of the verdict of `interfaceStatus.healthy`. -/
theorem healthy_fst (s : interfaceStatus) :
    (interfaceStatus.healthy s).fst
      = (s.exists && s.up && s.addressed && s.healthChecks.all (fun p => p.2)) := by
  unfold interfaceStatus.healthy
  rw [healthyFold_fst]
  cases hx : s.exists <;> cases hu : s.up <;> cases ha : s.addressed <;> simp [hx, hu, ha]

/-- Closed form of the reasons of `interfaceStatus.healthy`. -/
theorem healthy_snd (s : interfaceStatus) :
    (interfaceStatus.healthy s).snd
      = (if !s.exists then ["Interface does not exist"]
         else if !s.up then ["Interface is no up"]
         else if !s.addressed then ["Interface not properly addressed"]
         else [])
        ++ (s.healthChecks.filter (fun p => !p.2)).map (fun p => "Failed " ++ p.1) := by
  unfold interfaceStatus.healthy
  rw [healthyFold_snd]
  cases hx : s.exists <;> cases hu : s.up <;> cases ha : s.addressed <;> simp [hx, hu, ha]

/-- Overwriting an existing key with `false` puts `(k, false)` in the
modelled map. -/
theorem mapSet_false_mem (m : List (String × Bool)) (k : String)
    (h : ∃ p ∈ m, p.1 = k) : (k, false) ∈ mapSet m k false := by
  obtain ⟨p, hp, hpk⟩ := h
  unfold mapSet
  have hany : m.any (fun p => p.1 = k) = true := by
    simp only [List.any_eq_true, decide_eq_true_eq]
    exact ⟨p, hp, hpk⟩
  simp only [hany, if_true]
  exact List.mem_map.mpr ⟨p, hp, by simp [hpk]⟩

/-- Every entry of `mapSet m k v` is an old entry or the new pair. -/
theorem mapSet_mem (m : List (String × Bool)) (k : String) (v : Bool)
    (p : String × Bool) (hp : p ∈ mapSet m k v) : p ∈ m ∨ p = (k, v) := by
  unfold mapSet at hp
  cases hany : (m.any fun q => decide (q.1 = k)) with
  | true =>
    simp only [hany, if_true] at hp
    obtain ⟨q, hq, hqe⟩ := List.mem_map.mp hp
    by_cases hqk : q.1 = k
    · rw [if_pos hqk] at hqe
      exact Or.inr hqe.symm
    · rw [if_neg hqk] at hqe
      exact Or.inl (hqe ▸ hq)
  | false =>
    simp only [hany, Bool.false_eq_true, if_false] at hp
    rcases List.mem_append.mp hp with h | h
    · exact Or.inl h
    · right; simpa using h

/-! ### Claim theorems -/

/-- C1: `healthy()` is true iff `exists`, `up` and `addressed` hold and
every recorded health-check verdict passes; starting from a status with
all checks passing, flipping any single basic check or any single named
check to failing makes `healthy()` false and puts the basic-check reason,
respectively the check's identifier, into the returned failure-reason
list. -/
theorem C1_healthy_characterization (s : interfaceStatus)
    (hex : s.exists = true) (hup : s.up = true) (had : s.addressed = true)
    (hchk : ∀ p ∈ s.healthChecks, p.2 = true) :
    (∀ t : interfaceStatus, ((interfaceStatus.healthy t).fst = true ↔
        (t.exists = true ∧ t.up = true ∧ t.addressed = true ∧
          ∀ p ∈ t.healthChecks, p.2 = true)))
    ∧ (interfaceStatus.healthy s).fst = true
    ∧ ((interfaceStatus.healthy { s with «exists» := false }).fst = false
        ∧ "Interface does not exist" ∈
            (interfaceStatus.healthy { s with «exists» := false }).snd)
    ∧ ((interfaceStatus.healthy { s with up := false }).fst = false
        ∧ "Interface is no up" ∈ (interfaceStatus.healthy { s with up := false }).snd)
    ∧ ((interfaceStatus.healthy { s with addressed := false }).fst = false
        ∧ "Interface not properly addressed" ∈
            (interfaceStatus.healthy { s with addressed := false }).snd)
    ∧ (∀ n, (∃ p ∈ s.healthChecks, p.1 = n) →
        ((interfaceStatus.healthy
            { s with healthChecks := mapSet s.healthChecks n false }).fst = false
          ∧ ("Failed " ++ n) ∈
              (interfaceStatus.healthy
                { s with healthChecks := mapSet s.healthChecks n false }).snd)) := by
  refine ⟨?_, ?_, ⟨?_, ?_⟩, ⟨?_, ?_⟩, ⟨?_, ?_⟩, ?_⟩
  · intro t
    rw [healthy_fst]
    simp only [Bool.and_eq_true, List.all_eq_true, and_assoc]
  · rw [healthy_fst, hex, hup, had]
    simp only [Bool.true_and, List.all_eq_true]
    exact hchk
  · rw [healthy_fst]
    simp
  · rw [healthy_snd]
    simp
  · rw [healthy_fst]
    simp
  · rw [healthy_snd]
    simp [hex]
  · rw [healthy_fst]
    simp
  · rw [healthy_snd]
    simp [hex, hup]
  · intro n hn
    have hmem : (n, false) ∈ mapSet s.healthChecks n false := mapSet_false_mem _ _ hn
    constructor
    · rw [healthy_fst]
      cases hall : (mapSet s.healthChecks n false).all (fun p => p.2) with
      | false => simp [hall]
      | true =>
        have hcontr := List.all_eq_true.mp hall _ hmem
        simp at hcontr
    · rw [healthy_snd]
      refine List.mem_append_right _ ?_
      exact List.mem_map.mpr
        ⟨(n, false), List.mem_filter.mpr ⟨hmem, by simp⟩, rfl⟩

/-- Witness for C1 at a concrete all-passing status. -/
theorem C1_witness : (interfaceStatus.healthy c1Status).fst = true :=
  (C1_healthy_characterization c1Status rfl rfl rfl (by decide)).2.1

/-- Interface names distinct from the sentinel keep the serialized subset
policy distinct from `"all"`: a one-name policy is that name, and a
multi-name policy contains the separator character. -/
theorem joinPipe_ne_all (names : List String) (hne : names ≠ [])
    (hall : ∀ n ∈ names, n ≠ "all") : joinPipe names ≠ "all" := by
  match names with
  | [a] => simpa [joinPipe] using hall a (by simp)
  | a :: b :: rest =>
    intro heq
    have hdata : ('|' : Char) ∈ (joinPipe (a :: b :: rest)).data := by
      have hstep : joinPipe (a :: b :: rest) = a ++ "|" ++ joinPipe (b :: rest) := rfl
      rw [hstep]
      simp [String.data_append]
    rw [heq] at hdata
    have hlit : ("all" : String).data = ['a', 'l', 'l'] := rfl
    rw [hlit] at hdata
    exact absurd hdata (by decide)

/-- `getHealthyInterfaces` on a cons. -/
theorem getHealthy_cons (a : vpsInterface) (t : List vpsInterface) :
    getHealthyInterfaces (a :: t)
      = if (interfaceStatus.healthy a.status).fst then a :: getHealthyInterfaces t
        else getHealthyInterfaces t := by
  simp [getHealthyInterfaces, List.filter_cons]

/-- The healthy-name serialization and the cardinalities of the healthy
set are determined by the per-interface `(name, verdict)` pairs. -/
theorem healthyKey_determines (l1 : List vpsInterface) :
    ∀ l2 : List vpsInterface,
      l1.map (fun i => (i.Name, (interfaceStatus.healthy i.status).fst))
        = l2.map (fun i => (i.Name, (interfaceStatus.healthy i.status).fst)) →
      (getHealthyInterfaces l1).map (fun i => i.Name)
          = (getHealthyInterfaces l2).map (fun i => i.Name)
        ∧ (getHealthyInterfaces l1).length = (getHealthyInterfaces l2).length
        ∧ l1.length = l2.length := by
  induction l1 with
  | nil =>
    intro l2 h
    cases l2 with
    | nil => simp [getHealthyInterfaces]
    | cons b t2 => simp at h
  | cons a t1 ih =>
    intro l2 h
    cases l2 with
    | nil => simp at h
    | cons b t2 =>
      simp only [List.map_cons, List.cons.injEq, Prod.mk.injEq] at h
      obtain ⟨⟨hname, hbit⟩, htail⟩ := h
      obtain ⟨hmap, hlen, hlens⟩ := ih t2 htail
      cases hcond : (interfaceStatus.healthy a.status).fst with
      | true =>
        have hcond2 : (interfaceStatus.healthy b.status).fst = true := by
          rw [← hbit, hcond]
        rw [getHealthy_cons, getHealthy_cons, hcond, hcond2]
        simp [hname, hmap, hlen, hlens]
      | false =>
        have hcond2 : (interfaceStatus.healthy b.status).fst = false := by
          rw [← hbit, hcond]
        rw [getHealthy_cons, getHealthy_cons, hcond, hcond2]
        simp [hmap, hlen, hlens]

/-- Unfolding of `desiredPolicy` without its `let`. -/
theorem desiredPolicy_eq (ifaces : List vpsInterface) :
    desiredPolicy ifaces
      = if getHealthyInterfaces ifaces = [] then none
        else if (getHealthyInterfaces ifaces).length < ifaces.length then
          some (joinPipe ((getHealthyInterfaces ifaces).map (fun i => i.Name)))
        else some "all" := rfl

/-- C2: when at least one interface is configured and no interface is
itself named `all`, the computed policy is the sentinel `"all"` iff every
configured interface is healthy; a non-empty proper healthy subset yields
the healthy names in configuration order joined by `|`; and the policy is
a function of the per-interface `(name, verdict)` pairs, so identical
healthy sets yield identical policies. -/
theorem C2_policy_characterization (ifaces : List vpsInterface)
    (hne : ifaces ≠ []) (hnames : ∀ i ∈ ifaces, i.Name ≠ "all") :
    (desiredPolicy ifaces = some "all"
        ↔ ∀ i ∈ ifaces, (interfaceStatus.healthy i.status).fst = true)
    ∧ (getHealthyInterfaces ifaces ≠ [] →
        (getHealthyInterfaces ifaces).length < ifaces.length →
        desiredPolicy ifaces
          = some (joinPipe ((getHealthyInterfaces ifaces).map (fun i => i.Name))))
    ∧ (∀ ifaces2 : List vpsInterface,
        ifaces.map (fun i => (i.Name, (interfaceStatus.healthy i.status).fst))
          = ifaces2.map (fun i => (i.Name, (interfaceStatus.healthy i.status).fst)) →
        desiredPolicy ifaces = desiredPolicy ifaces2) := by
  refine ⟨⟨?_, ?_⟩, ?_, ?_⟩
  · intro hpol
    rw [desiredPolicy_eq] at hpol
    by_cases h0 : getHealthyInterfaces ifaces = []
    · rw [if_pos h0] at hpol
      exact absurd hpol (by simp)
    · rw [if_neg h0] at hpol
      by_cases h1 : (getHealthyInterfaces ifaces).length < ifaces.length
      · rw [if_pos h1] at hpol
        have hj : joinPipe ((getHealthyInterfaces ifaces).map (fun i => i.Name))
            = "all" := by simpa using hpol
        have habs : joinPipe ((getHealthyInterfaces ifaces).map (fun i => i.Name))
            ≠ "all" := by
          refine joinPipe_ne_all _ (by simpa using h0) ?_
          intro n hn
          obtain ⟨i, hi, hin⟩ := List.mem_map.mp hn
          exact hin ▸ hnames i (List.mem_of_mem_filter hi)
        exact absurd hj habs
      · have hlen : (getHealthyInterfaces ifaces).length = ifaces.length :=
          Nat.le_antisymm (List.length_filter_le _ _) (Nat.le_of_not_lt h1)
        exact fun i hi => List.filter_length_eq_length.mp hlen i hi
  · intro hallh
    have hfe : getHealthyInterfaces ifaces = ifaces :=
      List.filter_eq_self.mpr (fun i hi => by simpa using hallh i hi)
    rw [desiredPolicy_eq, hfe, if_neg hne, if_neg (Nat.lt_irrefl _)]
  · intro h1 h2
    rw [desiredPolicy_eq, if_neg (by simpa using h1), if_pos h2]
  · intro ifaces2 h
    obtain ⟨hmap, hlen, hlens⟩ := healthyKey_determines ifaces ifaces2 h
    rw [desiredPolicy_eq, desiredPolicy_eq]
    by_cases h0 : getHealthyInterfaces ifaces = []
    · have h02 : getHealthyInterfaces ifaces2 = [] := by
        apply List.length_eq_zero.mp
        rw [← hlen, h0]
        rfl
      rw [if_pos h0, if_pos h02]
    · have h02 : getHealthyInterfaces ifaces2 ≠ [] := by
        intro hz
        exact h0 (List.length_eq_zero.mp (by rw [hlen, hz]; rfl))
      rw [if_neg h0, if_neg h02]
      by_cases h1 : (getHealthyInterfaces ifaces).length < ifaces.length
      · have h12 : (getHealthyInterfaces ifaces2).length < ifaces2.length := by
          rw [← hlen, ← hlens]
          exact h1
        rw [if_pos h1, if_pos h12, hmap]
      · have h12 : ¬(getHealthyInterfaces ifaces2).length < ifaces2.length := by
          rw [← hlen, ← hlens]
          exact h1
        rw [if_neg h1, if_neg h12]

/-- Witness for C2: one healthy interface out of two yields the joined
subset policy. -/
theorem C2_witness :
    desiredPolicy [exIface3, exIfaceDown]
      = some (joinPipe ((getHealthyInterfaces [exIface3, exIfaceDown]).map
          (fun i => i.Name))) :=
  (C2_policy_characterization [exIface3, exIfaceDown] (by decide)
    (by decide)).2.1 (by decide) (by decide)

/-- The `uint8` ratio sum accumulates without wrapping while the running
total stays below 256. -/
theorem sumRatiosU8_foldl (l : List vpsInterface) :
    ∀ a : Nat, a + (l.map ratioU8).sum < 256 →
      l.foldl (fun a i => (a + ratioU8 i) % 256) a = a + (l.map ratioU8).sum := by
  induction l with
  | nil => intro a _; simp
  | cons i t ih =>
    intro a h
    simp only [List.map_cons, List.sum_cons] at h
    have hlt : a + ratioU8 i < 256 := by omega
    have h2 : (a + ratioU8 i) + (t.map ratioU8).sum < 256 := by omega
    rw [List.foldl_cons, Nat.mod_eq_of_lt hlt, ih _ h2]
    simp only [List.map_cons, List.sum_cons]
    omega

/-- `ttlMod` equals the plain ratio sum when that sum fits in a `uint8`. -/
theorem sumRatiosU8_eq (l : List vpsInterface)
    (h : (l.map ratioU8).sum < 256) : sumRatiosU8 l = (l.map ratioU8).sum := by
  unfold sumRatiosU8
  have := sumRatiosU8_foldl l 0 (by omega)
  simpa using this

/-- The chosen modulus equals the ratio sum (also when the sum is exactly
10, where the initial value 10 is kept). -/
theorem ruleModulus_eq (l : List vpsInterface)
    (h : (l.map ratioU8).sum < 256) : ruleModulus l = (l.map ratioU8).sum := by
  unfold ruleModulus
  rw [sumRatiosU8_eq l h]
  by_cases h10 : (l.map ratioU8).sum ≠ 10
  · rw [if_pos h10]
  · have he : (l.map ratioU8).sum = 10 := not_ne_iff.mp h10
    rw [if_neg h10, he]

/-- While the running offset plus the remaining ratio sum fits in a
`uint8`, the wrapped range loop agrees with the ideal prefix-sum
partition. -/
theorem vmapList_eq_ideal (l : List vpsInterface) :
    ∀ cur : Nat, (∀ i ∈ l, 1 ≤ ratioU8 i) →
      cur + (l.map ratioU8).sum ≤ 256 → vmapList cur l = idealVmap cur l := by
  induction l with
  | nil => intro cur _ _; rfl
  | cons i t ih =>
    intro cur hpos hsum
    simp only [List.map_cons, List.sum_cons] at hsum
    have hr : 1 ≤ ratioU8 i := hpos i (by simp)
    have hstop : (ratioU8 i + (cur + 255) % 256) % 256 = cur + ratioU8 i - 1 := by
      omega
    rw [show vmapList cur (i :: t)
          = (cur, (ratioU8 i + (cur + 255) % 256) % 256, i.Target)
              :: vmapList ((cur + ratioU8 i) % 256) t from rfl,
        show idealVmap cur (i :: t)
          = (cur, cur + ratioU8 i - 1, i.Target) :: idealVmap (cur + ratioU8 i) t
          from rfl, hstop]
    congr 1
    cases t with
    | nil => rfl
    | cons j t2 =>
      have hj : 1 ≤ ratioU8 j := hpos j (by simp)
      simp only [List.map_cons, List.sum_cons] at hsum
      have hlt : (cur + ratioU8 i) % 256 = cur + ratioU8 i :=
        Nat.mod_eq_of_lt (by omega)
      rw [hlt]
      apply ih
      · intro x hx
        exact hpos x (List.mem_cons_of_mem _ hx)
      · simp only [List.map_cons, List.sum_cons]
        omega

/-- Splitting a contiguous block of naturals. -/
theorem rangeList_append (s m n : Nat) :
    rangeList s (m + n) = rangeList s m ++ rangeList (s + m) n := by
  induction m generalizing s with
  | zero => simp [rangeList]
  | succ m ih =>
    rw [show m + 1 + n = (m + n) + 1 from by omega,
        show rangeList s (m + n + 1) = s :: rangeList (s + 1) (m + n) from rfl,
        ih (s + 1),
        show rangeList s (m + 1) = s :: rangeList (s + 1) m from rfl]
    have harg : s + 1 + m = s + (m + 1) := by omega
    rw [harg]
    rfl

/-- The ideal partition covers exactly the contiguous block starting at
the initial offset, of length the ratio sum. -/
theorem coveredPoints_ideal (l : List vpsInterface) :
    ∀ cur : Nat, (∀ i ∈ l, 1 ≤ ratioU8 i) →
      coveredPoints (idealVmap cur l) = rangeList cur ((l.map ratioU8).sum) := by
  induction l with
  | nil => intro cur _; rfl
  | cons i t ih =>
    intro cur hpos
    have hr : 1 ≤ ratioU8 i := hpos i (by simp)
    rw [show idealVmap cur (i :: t)
          = (cur, cur + ratioU8 i - 1, i.Target) :: idealVmap (cur + ratioU8 i) t
          from rfl,
        show coveredPoints
              ((cur, cur + ratioU8 i - 1, i.Target) :: idealVmap (cur + ratioU8 i) t)
          = rangeList cur (cur + ratioU8 i - 1 + 1 - cur)
              ++ coveredPoints (idealVmap (cur + ratioU8 i) t) from rfl,
        ih _ (fun x hx => hpos x (List.mem_cons_of_mem _ hx)),
        show cur + ratioU8 i - 1 + 1 - cur = ratioU8 i from by omega,
        List.map_cons, List.sum_cons]
    exact (rangeList_append cur (ratioU8 i) _).symm

/-- Each ideal entry has the width of its interface's ratio and that
interface's target, in order. -/
theorem idealVmap_shape (l : List vpsInterface) :
    ∀ cur : Nat, (∀ i ∈ l, 1 ≤ ratioU8 i) →
      (idealVmap cur l).map (fun e => (e.2.1 + 1 - e.1, e.2.2))
        = l.map (fun i => (ratioU8 i, i.Target)) := by
  induction l with
  | nil => intro cur _; rfl
  | cons i t ih =>
    intro cur hpos
    have hr : 1 ≤ ratioU8 i := hpos i (by simp)
    rw [show idealVmap cur (i :: t)
          = (cur, cur + ratioU8 i - 1, i.Target) :: idealVmap (cur + ratioU8 i) t
          from rfl, List.map_cons, List.map_cons,
        ih _ (fun x hx => hpos x (List.mem_cons_of_mem _ hx))]
    congr 1
    simp only []
    congr 1
    omega

set_option maxRecDepth 16384 in
/-- C3: for positive `int8` ratios whose sum fits in a `uint8`, the
generated rule's modulus equals the sum of the selected ratios, and the
vmap ranges are contiguous, zero-based, exhaustive over `0..sum-1` and
sized by each interface's ratio in the given order; ratios `[3,7]` give
ranges `0-2`/`3-9` with modulus 10 and ratios `[1,1,1]` give modulus 3
with ranges `0-0`,`1-1`,`2-2`. -/
theorem C3_rule_ranges (l : List vpsInterface)
    (hpos : ∀ i ∈ l, 1 ≤ i.Ratio) (hmax : ∀ i ∈ l, i.Ratio ≤ 127)
    (hsum : (l.map (fun i => Int.toNat i.Ratio)).sum < 256) :
    ruleModulus l = (l.map (fun i => Int.toNat i.Ratio)).sum
    ∧ coveredPoints (vmapList 0 l)
        = rangeList 0 ((l.map (fun i => Int.toNat i.Ratio)).sum)
    ∧ (vmapList 0 l).map (fun e => (e.2.1 + 1 - e.1, e.2.2))
        = l.map (fun i => (Int.toNat i.Ratio, i.Target))
    ∧ makeRule "inet" "mangle" "lb" [exIface3, exIface7]
        = "add rule inet mangle lb jhash ip saddr . ether saddr . meta l4proto . th sport mod 10 vmap \x7b 0-2 : goto vps1, 3-9 : goto vps2 \x7d"
    ∧ makeRule "inet" "mangle" "lb" [exIface1a, exIface1b, exIface1c]
        = "add rule inet mangle lb jhash ip saddr . ether saddr . meta l4proto . th sport mod 3 vmap \x7b 0-0 : goto vps1, 1-1 : goto vps2, 2-2 : goto vps3 \x7d" := by
  have hvu : ∀ i ∈ l, ratioU8 i = Int.toNat i.Ratio := by
    intro i hi
    have h1 := hpos i hi
    have h2 := hmax i hi
    unfold ratioU8 u8
    rw [Int.emod_eq_of_lt (by omega) (by omega)]
  have hmapeq : l.map ratioU8 = l.map (fun i => Int.toNat i.Ratio) :=
    List.map_congr_left hvu
  have hpos' : ∀ i ∈ l, 1 ≤ ratioU8 i := by
    intro i hi
    rw [hvu i hi]
    have := hpos i hi
    omega
  have hsum' : (l.map ratioU8).sum < 256 := by rw [hmapeq]; exact hsum
  refine ⟨?_, ?_, ?_, by decide, by decide⟩
  · rw [ruleModulus_eq l hsum', hmapeq]
  · rw [vmapList_eq_ideal l 0 hpos' (by omega), coveredPoints_ideal l 0 hpos',
      hmapeq]
  · rw [vmapList_eq_ideal l 0 hpos' (by omega), idealVmap_shape l 0 hpos']
    exact List.map_congr_left (fun i hi => by rw [hvu i hi])

set_option maxRecDepth 16384 in
/-- C3 (counterexample): three interfaces of the legal positive `int8`
ratio 100 have ratio sum 300, but the `uint8` accumulator `ttlMod` wraps
to 44, so the generated modulus is 44 rather than the sum, and the
emitted ranges (`0-99`, `100-199`, `200-43`) do not cover `0..299` — the
claim's unqualified modulus-equals-sum and exhaustiveness statements fail
at this input. -/
theorem C3_counterexample :
    (c3WrapIfaces.map (fun i => Int.toNat i.Ratio)).sum = 300
    ∧ sumRatiosU8 c3WrapIfaces = 44
    ∧ ruleModulus c3WrapIfaces = 44
    ∧ ruleModulus c3WrapIfaces
        ≠ (c3WrapIfaces.map (fun i => Int.toNat i.Ratio)).sum
    ∧ vmapList 0 c3WrapIfaces
        = [(0, 99, "vps1"), (100, 199, "vps2"), (200, 43, "vps3")]
    ∧ coveredPoints (vmapList 0 c3WrapIfaces)
        ≠ rangeList 0 ((c3WrapIfaces.map (fun i => Int.toNat i.Ratio)).sum) := by
  decide

/-- Witness for C3 at the `[3,7]` scenario. -/
theorem C3_witness :
    makeRule "inet" "mangle" "lb" [exIface3, exIface7]
      = "add rule inet mangle lb jhash ip saddr . ether saddr . meta l4proto . th sport mod 10 vmap \x7b 0-2 : goto vps1, 3-9 : goto vps2 \x7d" :=
  (C3_rule_ranges [exIface3, exIface7] (by decide) (by decide)
    (by decide)).2.2.2.1

/-- Unfolding of `cyclePolicy` without its `let`. -/
theorem cyclePolicy_eq (family table chain : String) (ifaces : List vpsInterface)
    (current : String) :
    cyclePolicy family table chain ifaces current
      = if current ≠ (desiredPolicy ifaces).getD current then
          updateNFT family table chain ifaces ((desiredPolicy ifaces).getD current)
        else (current, []) := rfl

/-- The evaluation time recorded on an evaluated status is the cycle
time. -/
theorem runStatus_time (e upOk addrOk : Bool) (checks : List vpsHealthCheck)
    (outcome : vpsHealthCheck → Bool) (now : Int) :
    (runStatus e upOk addrOk checks outcome now).time = now := rfl

set_option maxRecDepth 16384 in
/-- C4 (failing-input exhibit): with `wg0` healthy and `wg1` down the
desired policy is the subset `"wg0"`; applying it stores the empty string
(`updateNFT` only sets its returned state in the `"all"` branch), so a
second cycle that computes the same subset policy issues the flush and
install again instead of doing nothing. -/
theorem C4_bug_exhibit :
    desiredPolicy c4Ifaces = some "wg0"
    ∧ (cyclePolicy "inet" "mangle" "lb" c4Ifaces "all").fst = ""
    ∧ (cyclePolicy "inet" "mangle" "lb" c4Ifaces "all").snd ≠ []
    ∧ (cyclePolicy "inet" "mangle" "lb" c4Ifaces "").snd
        = (cyclePolicy "inet" "mangle" "lb" c4Ifaces "all").snd := by
  decide

/-- C5: in a cycle with no healthy interface the system refuses to act:
the stored policy state is left unchanged and no flush or install is
issued. -/
theorem C5_no_healthy_refusal (family table chain : String)
    (ifaces : List vpsInterface) (current : String)
    (h : getHealthyInterfaces ifaces = []) :
    cyclePolicy family table chain ifaces current = (current, []) := by
  have hd : desiredPolicy ifaces = none := by rw [desiredPolicy_eq, if_pos h]
  rw [cyclePolicy_eq, hd]
  simp

/-- Witness for C5 with one down interface. -/
theorem C5_witness :
    cyclePolicy "inet" "mangle" "lb" [exIfaceDown] "all" = ("all", []) :=
  C5_no_healthy_refusal "inet" "mangle" "lb" [exIfaceDown] "all" (by decide)

/-- C6: an interface whose last unhealthy observation was at time `T` is
skipped in every cycle with `now - T < minTimeOut`: its cross-cycle
state is untouched, the probe oracles are never consulted (the result
does not mention them), and the status the policy computation reads
carries the same (unhealthy) verdict it had at `T`. -/
theorem C6_flap_damping (minTimeOut now T : Int) (st : ifState)
    (s0 : interfaceStatus) (hls : st.lastStatus = some s0)
    (hT : st.lastUnhealthy = T)
    (h0 : (interfaceStatus.healthy s0).fst = false)
    (hwin : now - T < minTimeOut) :
    ∀ (e upOk addrOk : Bool) (checks : List vpsHealthCheck)
      (outcome : vpsHealthCheck → Bool),
      cycleIface minTimeOut now e upOk addrOk checks outcome st = (st, emptyStatus)
      ∧ (interfaceStatus.healthy
            (cycleIface minTimeOut now e upOk addrOk checks outcome st).snd).fst
          = (interfaceStatus.healthy s0).fst := by
  intro e upOk addrOk checks outcome
  have hstep : cycleIface minTimeOut now e upOk addrOk checks outcome st
      = (st, emptyStatus) := by
    unfold cycleIface
    simp only [hls]
    rw [hT, if_pos hwin]
  refine ⟨hstep, ?_⟩
  rw [hstep, h0]
  show (interfaceStatus.healthy emptyStatus).fst = false
  decide

/-- Witness for C6 inside the damped window. -/
theorem C6_witness :
    cycleIface 30 20 true true true [] (fun _ => true) c7State
      = (c7State, emptyStatus) :=
  (C6_flap_damping 30 20 0 c7State c7PrevStatus rfl rfl (by decide) (by decide)
    true true true [] (fun _ => true)).1

/-- C7 (counterexample): with the previous verdict already unhealthy
(`lastStatus` unhealthy, `lastUnhealthy = 0`), an evaluated cycle at time
100 whose verdict is again unhealthy rewrites `lastUnhealthy` from 0 to
100 although no healthy-to-unhealthy transition occurred. -/
theorem C7_counterexample :
    (interfaceStatus.healthy c7PrevStatus).fst = false
    ∧ c7State.lastStatus = some c7PrevStatus
    ∧ c7State.lastUnhealthy = 0
    ∧ (interfaceStatus.healthy
        (cycleIface 30 100 false false false [] (fun _ => false) c7State).snd).fst
        = false
    ∧ (cycleIface 30 100 false false false [] (fun _ => false) c7State).fst.lastUnhealthy
        = 100 := by
  decide

/-- C7 (amended): the last-unhealthy timestamp is unchanged on damped
(skipped) cycles; on an evaluated cycle it is unchanged when the computed
verdict is healthy and set to `now` whenever the verdict is unhealthy,
including cycles on which the interface was already unhealthy; on an
interface's first-ever cycle it is initialized to `now` minus 8760 hours
(and then to `now` if that first evaluation is unhealthy). -/
theorem C7_last_unhealthy_amended (minTimeOut now : Int) (e upOk addrOk : Bool)
    (checks : List vpsHealthCheck) (outcome : vpsHealthCheck → Bool)
    (st : ifState) :
    (st.lastStatus ≠ none → now - st.lastUnhealthy < minTimeOut →
        (cycleIface minTimeOut now e upOk addrOk checks outcome st).fst = st)
    ∧ (st.lastStatus ≠ none → ¬(now - st.lastUnhealthy < minTimeOut) →
        (cycleIface minTimeOut now e upOk addrOk checks outcome st).fst.lastUnhealthy
          = (if (interfaceStatus.healthy
                  (runStatus e upOk addrOk checks outcome now)).fst
             then st.lastUnhealthy else now))
    ∧ (st.lastStatus = none →
        (cycleIface minTimeOut now e upOk addrOk checks outcome st).fst.lastUnhealthy
          = (if (interfaceStatus.healthy
                  (runStatus e upOk addrOk checks outcome now)).fst
             then now - firstCycleBackdate else now)) := by
  refine ⟨?_, ?_, ?_⟩
  · intro hsome hwin
    cases hls : st.lastStatus with
    | none => exact absurd hls hsome
    | some s0 =>
      unfold cycleIface
      simp only [hls]
      rw [if_pos hwin]
  · intro hsome hwin
    cases hls : st.lastStatus with
    | none => exact absurd hls hsome
    | some s0 =>
      unfold cycleIface
      simp only [hls]
      rw [if_neg hwin]
      simp [runStatus_time]
  · intro hls
    unfold cycleIface
    simp only [hls]
    simp [runStatus_time]

/-- Witness for C7's amended statement: the already-unhealthy interface's
timestamp is rewritten to the cycle time on an evaluated unhealthy
cycle. -/
theorem C7_amended_witness :
    (cycleIface 30 100 false false false [] (fun _ => false) c7State).fst.lastUnhealthy
      = 100 := by
  have h := (C7_last_unhealthy_amended 30 100 false false false []
    (fun _ => false) c7State).2.1 (by decide) (by decide)
  rw [h]
  decide

/-- C8: with the pinger succeeding and the RTT gate passing, a nonzero
`MaxLossPcnt` makes the ICMP check fail exactly when the observed loss
exceeds it, while with no loss threshold configured the check fails on
loss only at exactly 100%; 40% loss fails against a 20% bound and passes
against a 50% bound. -/
theorem C8_icmp_loss (c : vpsHealthCheck) (avgRtt : Int) (loss : Rat)
    (hrtt : c.MaxRTT = 0 ∨ avgRtt ≤ c.MaxRTT * 1000000) :
    (c.MaxLossPcnt ≠ 0 →
        (checkICMP c true true avgRtt loss = false ↔ loss > c.MaxLossPcnt))
    ∧ (c.MaxLossPcnt = 0 →
        (checkICMP c true true avgRtt loss = false ↔ loss = 100))
    ∧ checkICMP { Name := "p", «Type» := "icmp", MaxLossPcnt := 20 } true true 0 40
        = false
    ∧ checkICMP { Name := "p", «Type» := "icmp", MaxLossPcnt := 50 } true true 0 40
        = true := by
  have hrtt' : ¬(c.MaxRTT ≠ 0 ∧ avgRtt > c.MaxRTT * 1000000) := by
    rcases hrtt with h | h
    · simp [h]
    · intro hc
      exact absurd hc.2 (by omega)
  have hform : checkICMP c true true avgRtt loss
      = (if c.MaxLossPcnt ≠ 0 then (if loss > c.MaxLossPcnt then false else true)
         else if loss = 100 then false else true) := by
    unfold checkICMP
    simp [hrtt']
  refine ⟨?_, ?_, by decide, by decide⟩
  · intro hml
    rw [hform, if_pos hml]
    constructor
    · intro hf
      by_contra hnl
      rw [if_neg hnl] at hf
      exact absurd hf (by simp)
    · intro hl
      rw [if_pos hl]
  · intro hml
    rw [hform, if_neg (fun hx => hx hml)]
    constructor
    · intro hf
      by_contra hnl
      rw [if_neg hnl] at hf
      exact absurd hf (by simp)
    · intro hl
      rw [if_pos hl]

/-- Witness for C8: 40% loss against a 20% bound fails. -/
theorem C8_witness :
    checkICMP { Name := "p", «Type» := "icmp", MaxLossPcnt := 20 } true true 0 40
      = false :=
  ((C8_icmp_loss { Name := "p", «Type» := "icmp", MaxLossPcnt := 20 } 0 40
    (Or.inl rfl)).1 (by norm_num)).mpr (by norm_num)

/-- Unfolding of `checkHTTP`. -/
theorem checkHTTP_eq (c : vpsHealthCheck) (reOk : Bool) (reMatch : String → Bool)
    (attempts : Nat → httpAttempt) :
    checkHTTP c reOk reMatch attempts
      = if c.MatchRegEx ≠ "" && !reOk then false
        else if c.Method = "GET" then
          checkHTTPLoop c reMatch attempts 0 (c.Retries + 1).toNat
        else false := rfl

/-- The retry loop walks over leading transport errors. -/
theorem checkHTTPLoop_skip (c : vpsHealthCheck) (reMatch : String → Bool)
    (attempts : Nat → httpAttempt) :
    ∀ (m k n : Nat), (∀ j, j < m → attempts (k + j) = httpAttempt.err) →
      checkHTTPLoop c reMatch attempts k (m + n)
        = checkHTTPLoop c reMatch attempts (k + m) n := by
  intro m
  induction m with
  | zero =>
    intro k n _
    simp
  | succ m ih =>
    intro k n herr
    have h0 : attempts k = httpAttempt.err := by
      have := herr 0 (by omega)
      simpa using this
    have hstep : checkHTTPLoop c reMatch attempts k ((m + n) + 1)
        = checkHTTPLoop c reMatch attempts (k + 1) (m + n) := by
      show (match attempts k with
            | httpAttempt.err => checkHTTPLoop c reMatch attempts (k + 1) (m + n)
            | httpAttempt.resp code body =>
              if c.ResponseCode ≠ code then false
              else if c.MatchRegEx ≠ "" && !(reMatch body) then false
              else true)
          = checkHTTPLoop c reMatch attempts (k + 1) (m + n)
      rw [h0]
    have hshift : ∀ j, j < m → attempts (k + 1 + j) = httpAttempt.err := by
      intro j hj
      have := herr (j + 1) (by omega)
      rw [show k + 1 + j = k + (j + 1) from by omega]
      exact this
    rw [show m + 1 + n = (m + n) + 1 from by omega, hstep, ih (k + 1) n hshift,
        show k + 1 + m = k + (m + 1) from by omega]

/-- A run consisting only of transport errors fails. -/
theorem checkHTTPLoop_allerr (c : vpsHealthCheck) (reMatch : String → Bool)
    (attempts : Nat → httpAttempt) (m k : Nat)
    (herr : ∀ j, j < m → attempts (k + j) = httpAttempt.err) :
    checkHTTPLoop c reMatch attempts k m = false := by
  have h := checkHTTPLoop_skip c reMatch attempts m k 0 herr
  rw [show checkHTTPLoop c reMatch attempts (k + m) 0 = false from rfl] at h
  simpa using h

/-- The first attempt that yields a response decides the check. -/
theorem checkHTTPLoop_reach (c : vpsHealthCheck) (reMatch : String → Bool)
    (attempts : Nat → httpAttempt) (k fuel : Nat) (code : Int) (body : String)
    (hk : k < fuel) (herr : ∀ j, j < k → attempts j = httpAttempt.err)
    (hresp : attempts k = httpAttempt.resp code body) :
    checkHTTPLoop c reMatch attempts 0 fuel
      = (if c.ResponseCode ≠ code then false
         else if c.MatchRegEx ≠ "" && !(reMatch body) then false
         else true) := by
  rw [show fuel = k + ((fuel - k - 1) + 1) from by omega,
      checkHTTPLoop_skip c reMatch attempts k 0 _
        (fun j hj => by simpa using herr j hj),
      show (0 + k) = k from by omega]
  show (match attempts k with
        | httpAttempt.err => checkHTTPLoop c reMatch attempts (k + 1) (fuel - k - 1)
        | httpAttempt.resp code body =>
          if c.ResponseCode ≠ code then false
          else if c.MatchRegEx ≠ "" && !(reMatch body) then false
          else true)
      = (if c.ResponseCode ≠ code then false
         else if c.MatchRegEx ≠ "" && !(reMatch body) then false
         else true)
  rw [hresp]

/-- C9: once a response arrives, a status-code mismatch or a configured
body pattern that fails to match fails the check immediately, with the
result independent of any later attempt; transport errors are walked over
up to the configured retry budget, and exhausting it fails; a good
response after errors passes; any method other than GET fails
immediately. -/
theorem C9_http_response_handling (c : vpsHealthCheck) (reOk : Bool)
    (reMatch : String → Bool) (attempts : Nat → httpAttempt) (k : Nat)
    (code : Int) (body : String) (hm : c.Method = "GET")
    (hk : k < (c.Retries + 1).toNat)
    (herr : ∀ j, j < k → attempts j = httpAttempt.err)
    (hresp : attempts k = httpAttempt.resp code body) :
    (c.ResponseCode ≠ code →
        ∀ attempts2 : Nat → httpAttempt,
          (∀ j, j ≤ k → attempts2 j = attempts j) →
          checkHTTP c reOk reMatch attempts2 = false)
    ∧ (c.ResponseCode = code → c.MatchRegEx ≠ "" → reMatch body = false →
        ∀ attempts2 : Nat → httpAttempt,
          (∀ j, j ≤ k → attempts2 j = attempts j) →
          checkHTTP c reOk reMatch attempts2 = false)
    ∧ (c.ResponseCode = code → (c.MatchRegEx = "" ∨ reMatch body = true) →
        (c.MatchRegEx ≠ "" → reOk = true) →
        checkHTTP c reOk reMatch attempts = true)
    ∧ (∀ method, method ≠ "GET" →
        ∀ atts : Nat → httpAttempt,
          checkHTTP { c with Method := method } reOk reMatch atts = false)
    ∧ (∀ atts : Nat → httpAttempt,
        (∀ j, j < (c.Retries + 1).toNat → atts j = httpAttempt.err) →
        checkHTTP c reOk reMatch atts = false) := by
  refine ⟨?_, ?_, ?_, ?_, ?_⟩
  · intro hcode attempts2 hagree
    rw [checkHTTP_eq]
    by_cases hfront : c.MatchRegEx ≠ "" && !reOk
    · rw [if_pos hfront]
    · rw [if_neg hfront, if_pos hm,
        checkHTTPLoop_reach c reMatch attempts2 k _ code body hk
          (fun j hj => by rw [hagree j (Nat.le_of_lt hj)]; exact herr j hj)
          (by rw [hagree k (Nat.le_refl k)]; exact hresp),
        if_pos hcode]
  · intro hcode hmre hbody attempts2 hagree
    rw [checkHTTP_eq]
    by_cases hfront : c.MatchRegEx ≠ "" && !reOk
    · rw [if_pos hfront]
    · rw [if_neg hfront, if_pos hm,
        checkHTTPLoop_reach c reMatch attempts2 k _ code body hk
          (fun j hj => by rw [hagree j (Nat.le_of_lt hj)]; exact herr j hj)
          (by rw [hagree k (Nat.le_refl k)]; exact hresp)]
      simp [hcode, hmre, hbody]
  · intro hcode hbodyor hreok
    rw [checkHTTP_eq]
    have hfront : ¬(c.MatchRegEx ≠ "" && !reOk) := by
      by_cases hmre : c.MatchRegEx = ""
      · simp [hmre]
      · rw [hreok hmre]
        simp
    rw [if_neg hfront, if_pos hm,
      checkHTTPLoop_reach c reMatch attempts k _ code body hk herr hresp]
    rcases hbodyor with hre0 | hmatch
    · simp [hcode, hre0]
    · simp [hcode, hmatch]
  · intro method hne atts
    rw [checkHTTP_eq]
    by_cases hfront :
        ({ c with Method := method } : vpsHealthCheck).MatchRegEx ≠ "" && !reOk
    · rw [if_pos hfront]
    · rw [if_neg hfront, if_neg (by simpa using hne)]
  · intro atts herrall
    rw [checkHTTP_eq]
    by_cases hfront : c.MatchRegEx ≠ "" && !reOk
    · rw [if_pos hfront]
    · rw [if_neg hfront, if_pos hm]
      exact checkHTTPLoop_allerr c reMatch atts _ 0
        (fun j hj => by simpa using herrall j hj)

/-- Witness for C9: one transport error followed by a matching 200
response passes. -/
theorem C9_witness :
    checkHTTP { Method := "GET", ResponseCode := 200, Retries := 1 } true
      (fun _ => true)
      (fun j => if j = 0 then httpAttempt.err else httpAttempt.resp 200 "OK")
      = true :=
  (C9_http_response_handling
    { Method := "GET", ResponseCode := 200, Retries := 1 } true (fun _ => true)
    (fun j => if j = 0 then httpAttempt.err else httpAttempt.resp 200 "OK")
    1 200 "OK" rfl (by decide)
    (by intro j hj
        have hj0 : j = 0 := by omega
        subst hj0
        rfl)
    (by rfl)).2.2.1 rfl (Or.inl rfl) (fun h => rfl)

/-- Every entry of the accumulated verdict map is an initial entry or the
recorded outcome of a recognized-type check. -/
theorem healthChecksAll_entries (outcome : vpsHealthCheck → Bool)
    (cs : List vpsHealthCheck) :
    ∀ (init : List (String × Bool)) (p : String × Bool),
      p ∈ cs.foldl (healthCheckStep outcome) init →
      p ∈ init
        ∨ ∃ c ∈ cs, knownCheckType c.«Type» = true ∧ p = (c.Name, outcome c) := by
  induction cs with
  | nil =>
    intro init p hp
    exact Or.inl (by simpa using hp)
  | cons c t ih =>
    intro init p hp
    rw [List.foldl_cons] at hp
    rcases ih _ p hp with hini | ⟨c2, hc2, hk2, he2⟩
    · unfold healthCheckStep at hini
      by_cases hk : knownCheckType c.«Type» = true
      · rw [if_pos hk] at hini
        rcases mapSet_mem _ _ _ _ hini with h | h
        · exact Or.inl h
        · exact Or.inr ⟨c, by simp, hk, h⟩
      · rw [if_neg hk] at hini
        exact Or.inl hini
    · exact Or.inr ⟨c2, List.mem_cons_of_mem _ hc2, hk2, he2⟩

/-- C10: a configured check whose type is not `tcp`, `icmp` or `http` is
skipped without recording a verdict — its name never appears in the
verdict map (given check names are unique across recognized checks) — so
an interface whose basic checks and recognized checks all pass is
reported healthy even though the unrecognized check never ran. -/
theorem C10_unknown_check_skipped (cs : List vpsHealthCheck)
    (outcome : vpsHealthCheck → Bool) (c : vpsHealthCheck) (hc : c ∈ cs)
    (hunk : knownCheckType c.«Type» = false)
    (hname : ∀ c2 ∈ cs, knownCheckType c2.«Type» = true → c2.Name ≠ c.Name) :
    (∀ p ∈ healthChecksAll outcome cs, p.1 ≠ c.Name)
    ∧ ((∀ c2 ∈ cs, knownCheckType c2.«Type» = true → outcome c2 = true) →
        (interfaceStatus.healthy
          { «exists» := true, up := true, addressed := true,
            healthChecks := healthChecksAll outcome cs, time := 0 }).fst
          = true) := by
  constructor
  · intro p hp
    rcases healthChecksAll_entries outcome cs [] p hp with h | ⟨c2, hc2, hk2, he2⟩
    · simp at h
    · rw [he2]
      simpa using hname c2 hc2 hk2
  · intro hpass
    rw [healthy_fst]
    simp only [Bool.true_and, List.all_eq_true]
    intro p hp
    rcases healthChecksAll_entries outcome cs [] p hp with h | ⟨c2, hc2, hk2, he2⟩
    · simp at h
    · rw [he2]
      simpa using hpass c2 hc2 hk2

/-- Witness for C10: a passing tcp check plus an unrecognized udp check
still yields a healthy interface. -/
theorem C10_witness :
    (interfaceStatus.healthy
      { «exists» := true, up := true, addressed := true,
        healthChecks := healthChecksAll (fun _ => true) [c10Tcp, c10Udp],
        time := 0 }).fst = true :=
  (C10_unknown_check_skipped [c10Tcp, c10Udp] (fun _ => true) c10Udp (by decide)
    (by decide) (by decide)).2 (fun c2 h1 h2 => rfl)
